import Mathlib

/-!
Verification of the statistics, timeline, traffic-generation and edge-case
validation engine of the rate-limiter load-testing harness
(`load_testing/comprehensive_load_test.py` and `load_testing/analyze_results.py`).

Python floats are modelled exactly as rationals (`ℚ`), machine integers as
`ℕ`/`ℤ`.  Functions whose Python counterparts can raise on inputs outside the
domain used by the program (empty lists, out-of-range indices) are totalised
with explicit defaults; every theorem below confines itself to the in-domain
inputs where the totalisation is not exercised.
-/

namespace RateLimiterLoadTest

/-- Python `int(x)` applied to a float: truncation toward zero. -/
def ratTrunc (q : ℚ) : ℤ := if q < 0 then ⌈q⌉ else ⌊q⌋

/-- `compute_percentile(sorted_values, percentile)`
(`comprehensive_load_test.py` 1243-1248):
returns `0.0` for an empty list, otherwise `sorted_values[k]` with
`k = int((len(sorted_values) - 1) * percentile)`.
Python raises `IndexError` when `k` is out of range (and indexes from the end
for negative `k`); this embedding totalises those cases with `0` — all
theorems below restrict `percentile` to `[0, 1]`, where the index is in range
and nonnegative. -/
def compute_percentile (sorted_values : List ℚ) (percentile : ℚ) : ℚ :=
  if sorted_values = [] then 0
  else sorted_values.getD (ratTrunc ((sorted_values.length - 1 : ℚ) * percentile)).toNat 0

/-- Python `min(l)` over a nonempty list, totalised with `0` on `[]`
(the source guards every use with an emptiness test). -/
def listMin : List ℚ → ℚ
  | [] => 0
  | x :: xs => xs.foldl min x

/-- Python `max(l)` over a nonempty list, totalised with `0` on `[]`. -/
def listMax : List ℚ → ℚ
  | [] => 0
  | x :: xs => xs.foldl max x

/-- `statistics.mean`, totalised with `0` on `[]` (note `x / 0 = 0` in `ℚ`). -/
def listMean (l : List ℚ) : ℚ := l.sum / l.length

/-- `statistics.median` of an already-sorted list: middle element for odd
length, mean of the two middle elements for even length. -/
def listMedian (l : List ℚ) : ℚ :=
  if l.length % 2 = 1 then l.getD (l.length / 2) 0
  else (l.getD (l.length / 2 - 1) 0 + l.getD (l.length / 2) 0) / 2

/-- The square of `statistics.stdev`: the sample variance
`Σ (x - mean)² / (n - 1)`.  The source stores the square root of this value;
a rational square root is irrational in general, so the development carries
the square — a statistic is zero exactly when its square is zero, so every
zero-ness claim about the standard deviation transfers verbatim. -/
def sampleVarianceQ (l : List ℚ) : ℚ :=
  ((l.map (fun x => (x - listMean l) ^ 2)).sum) / ((l.length : ℚ) - 1)

/-- One recorded request (`RequestMetric` dataclass, lines 51-64).
`timestamp_ms` is `int(time.time() * 1000)`, always nonnegative, hence `ℕ`. -/
structure RequestMetric where
  timestamp_ms : ℕ
  latency_ms : ℚ
  status_code : ℕ
  allowed : Option Bool
  error : Option String
  key : String
  endpoint : String
  algorithm : String
  tokens : ℕ
  remaining_tokens : Option ℤ := none
  retry_after : Option ℤ := none
deriving DecidableEq

/-- `AggregateStats` dataclass (lines 67-87).  `std_dev_sq_ms` carries the
square of the source's `std_dev_ms` (see `sampleVarianceQ`). -/
structure AggregateStats where
  total : ℕ
  allowed : ℕ
  denied : ℕ
  errors : ℕ
  rps : ℚ
  min_ms : ℚ
  max_ms : ℚ
  avg_ms : ℚ
  median_ms : ℚ
  p50_ms : ℚ
  p75_ms : ℚ
  p90_ms : ℚ
  p95_ms : ℚ
  p99_ms : ℚ
  p999_ms : ℚ
  std_dev_sq_ms : ℚ
  success_rate : ℚ
  error_rate : ℚ
deriving DecidableEq

/-- The all-zero `AggregateStats` literal returned for an empty metric list
(lines 1253-1259). -/
def zeroStats : AggregateStats :=
  { total := 0, allowed := 0, denied := 0, errors := 0, rps := 0,
    min_ms := 0, max_ms := 0, avg_ms := 0, median_ms := 0,
    p50_ms := 0, p75_ms := 0, p90_ms := 0, p95_ms := 0, p99_ms := 0, p999_ms := 0,
    std_dev_sq_ms := 0, success_rate := 0, error_rate := 0 }

/-- `aggregate_metrics(metrics, duration_seconds)` (lines 1251-1298).
`latencies` is the in-place-sorted list of latencies of error-free outcomes;
`statistics.mean`/`median` are applied to it after sorting, which leaves
their values unchanged, so the embedding computes them on the sorted list. -/
def aggregate_metrics (metrics : List RequestMetric) (duration_seconds : ℕ) : AggregateStats :=
  if metrics = [] then zeroStats
  else
    let total := metrics.length
    let allowedN := metrics.countP (fun m => m.allowed == some true)
    let deniedN := metrics.countP (fun m => m.allowed == some false)
    let errorsN := metrics.countP (fun m => m.error != none)
    let latencies :=
      List.insertionSort (· ≤ ·) ((metrics.filter (fun m => m.error == none)).map
        (fun m => m.latency_ms))
    { total := total
      allowed := allowedN
      denied := deniedN
      errors := errorsN
      rps := (total : ℚ) / (max duration_seconds 1 : ℕ)
      min_ms := if latencies = [] then 0 else listMin latencies
      max_ms := if latencies = [] then 0 else listMax latencies
      avg_ms := if latencies = [] then 0 else listMean latencies
      median_ms := if latencies = [] then 0 else listMedian latencies
      p50_ms := compute_percentile latencies 0.50
      p75_ms := compute_percentile latencies 0.75
      p90_ms := compute_percentile latencies 0.90
      p95_ms := compute_percentile latencies 0.95
      p99_ms := compute_percentile latencies 0.99
      p999_ms := compute_percentile latencies 0.999
      std_dev_sq_ms := if 1 < latencies.length then sampleVarianceQ latencies else 0
      success_rate := if 0 < total then ((total : ℚ) - errorsN) / total * 100 else 0
      error_rate := if 0 < total then (errorsN : ℚ) / total * 100 else 0 }

/-! ### Helper lemmas about `listMin`, `listMax` and the percentile index -/

lemma foldl_min_le (xs : List ℚ) (acc : ℚ) :
    xs.foldl min acc ≤ acc ∧ ∀ y ∈ xs, xs.foldl min acc ≤ y := by
  induction xs generalizing acc with
  | nil => simp
  | cons x xs ih =>
    refine ⟨le_trans (ih (min acc x)).1 (min_le_left _ _), ?_⟩
    intro y hy
    rcases List.mem_cons.1 hy with rfl | hy
    · exact le_trans (ih (min acc y)).1 (min_le_right _ _)
    · exact (ih (min acc x)).2 y hy

lemma le_foldl_max (xs : List ℚ) (acc : ℚ) :
    acc ≤ xs.foldl max acc ∧ ∀ y ∈ xs, y ≤ xs.foldl max acc := by
  induction xs generalizing acc with
  | nil => simp
  | cons x xs ih =>
    refine ⟨le_trans (le_max_left _ _) (ih (max acc x)).1, ?_⟩
    intro y hy
    rcases List.mem_cons.1 hy with rfl | hy
    · exact le_trans (le_max_right _ _) (ih (max acc y)).1
    · exact (ih (max acc x)).2 y hy

lemma listMin_le_of_mem {l : List ℚ} {y : ℚ} (hy : y ∈ l) : listMin l ≤ y := by
  cases l with
  | nil => simp at hy
  | cons x xs =>
    rcases List.mem_cons.1 hy with rfl | hy
    · exact (foldl_min_le xs y).1
    · exact (foldl_min_le xs x).2 y hy

lemma le_listMax_of_mem {l : List ℚ} {y : ℚ} (hy : y ∈ l) : y ≤ listMax l := by
  cases l with
  | nil => simp at hy
  | cons x xs =>
    rcases List.mem_cons.1 hy with rfl | hy
    · exact (le_foldl_max xs y).1
    · exact (le_foldl_max xs x).2 y hy

/-- The percentile index as a natural number. -/
def percentileIdx (n : ℕ) (f : ℚ) : ℕ := (ratTrunc ((n - 1 : ℚ) * f)).toNat

lemma ratTrunc_of_nonneg {q : ℚ} (h : 0 ≤ q) : ratTrunc q = ⌊q⌋ := by
  rw [ratTrunc, if_neg (not_lt.2 h)]

lemma percentileIdx_lt {n : ℕ} (hn : 1 ≤ n) {f : ℚ} (h0 : 0 ≤ f) (h1 : f ≤ 1) :
    percentileIdx n f < n := by
  have hnn : (0 : ℚ) ≤ (n : ℚ) - 1 := by
    have : (1 : ℚ) ≤ (n : ℚ) := by exact_mod_cast hn
    linarith
  have hq : (0 : ℚ) ≤ ((n : ℚ) - 1) * f := mul_nonneg hnn h0
  have hle : ((n : ℚ) - 1) * f ≤ (n : ℚ) - 1 := by nlinarith
  have hfl : ⌊((n : ℚ) - 1) * f⌋ ≤ (n : ℤ) - 1 := by
    have h2 := Int.floor_le_floor hle
    have h3 : ⌊(n : ℚ) - 1⌋ = (n : ℤ) - 1 := by
      rw [show ((n : ℚ) - 1) = (((n : ℤ) - 1 : ℤ) : ℚ) by push_cast; ring, Int.floor_intCast]
    omega
  rw [percentileIdx, ratTrunc_of_nonneg hq]
  omega

lemma percentileIdx_mono {n : ℕ} {f₁ f₂ : ℚ} (hn : 1 ≤ n) (h0 : 0 ≤ f₁) (h12 : f₁ ≤ f₂) :
    percentileIdx n f₁ ≤ percentileIdx n f₂ := by
  have hnn : (0 : ℚ) ≤ (n : ℚ) - 1 := by
    have : (1 : ℚ) ≤ (n : ℚ) := by exact_mod_cast hn
    linarith
  have hq1 : (0 : ℚ) ≤ ((n : ℚ) - 1) * f₁ := mul_nonneg hnn h0
  have hq2 : (0 : ℚ) ≤ ((n : ℚ) - 1) * f₂ := le_trans hq1 (by nlinarith)
  rw [percentileIdx, percentileIdx, ratTrunc_of_nonneg hq1, ratTrunc_of_nonneg hq2]
  exact Int.toNat_le_toNat (Int.floor_le_floor (by nlinarith))

lemma percentileIdx_one {n : ℕ} (hn : 1 ≤ n) : percentileIdx n 1 = n - 1 := by
  have hnn : (0 : ℚ) ≤ (n : ℚ) - 1 := by
    have : (1 : ℚ) ≤ (n : ℚ) := by exact_mod_cast hn
    linarith
  rw [percentileIdx, mul_one, ratTrunc_of_nonneg hnn,
    show ((n : ℚ) - 1) = (((n : ℤ) - 1 : ℤ) : ℚ) by push_cast; ring, Int.floor_intCast]
  omega

lemma percentileIdx_zero (n : ℕ) : percentileIdx n 0 = 0 := by
  rw [percentileIdx, mul_zero, ratTrunc_of_nonneg le_rfl, Int.floor_zero, Int.toNat_zero]

lemma compute_percentile_eq_get {l : List ℚ} (hne : l ≠ []) {f : ℚ}
    (hk : percentileIdx l.length f < l.length) :
    compute_percentile l f = l.get ⟨percentileIdx l.length f, hk⟩ := by
  rw [compute_percentile, if_neg hne]
  exact List.getD_eq_get l 0 hk

lemma compute_percentile_mem {l : List ℚ} (hne : l ≠ []) {f : ℚ}
    (h0 : 0 ≤ f) (h1 : f ≤ 1) : compute_percentile l f ∈ l := by
  have hk : percentileIdx l.length f < l.length :=
    percentileIdx_lt (List.length_pos.2 hne) h0 h1
  rw [compute_percentile_eq_get hne hk]
  exact l.get_mem _ _

lemma compute_percentile_mono {l : List ℚ} (hs : List.Sorted (· ≤ ·) l)
    {f₁ f₂ : ℚ} (h0 : 0 ≤ f₁) (h12 : f₁ ≤ f₂) (h1 : f₂ ≤ 1) :
    compute_percentile l f₁ ≤ compute_percentile l f₂ := by
  by_cases hne : l = []
  · subst hne; simp [compute_percentile]
  · have hn : 1 ≤ l.length := List.length_pos.2 hne
    have hk1 : percentileIdx l.length f₁ < l.length :=
      percentileIdx_lt hn h0 (le_trans h12 h1)
    have hk2 : percentileIdx l.length f₂ < l.length :=
      percentileIdx_lt hn (le_trans h0 h12) h1
    rw [compute_percentile_eq_get hne hk1, compute_percentile_eq_get hne hk2]
    exact hs.rel_get_of_le (by rw [Fin.le_def]; exact percentileIdx_mono hn h0 h12)

/-- **C1.** For every non-empty ascending-sorted latency list and every
fraction `f ∈ [0,1]`, `compute_percentile` returns the element at zero-based
index `⌊(n-1)·f⌋`; at `f = 1` the result is the maximum of the list
(a member that dominates every element), at `f = 0` it is the minimum
(a member dominated by every element), and on the empty list the result
is `0`. -/
theorem compute_percentile_nearest_rank (l : List ℚ) (f : ℚ)
    (hs : List.Sorted (· ≤ ·) l) (hne : l ≠ []) (h0 : 0 ≤ f) (h1 : f ≤ 1) :
    (∃ hk : percentileIdx l.length f < l.length,
        compute_percentile l f = l.get ⟨percentileIdx l.length f, hk⟩)
    ∧ (compute_percentile l 1 ∈ l ∧ ∀ x ∈ l, x ≤ compute_percentile l 1)
    ∧ (compute_percentile l 0 ∈ l ∧ ∀ x ∈ l, compute_percentile l 0 ≤ x)
    ∧ (∀ g : ℚ, compute_percentile [] g = 0) := by
  have hn : 1 ≤ l.length := List.length_pos.2 hne
  have hk : percentileIdx l.length f < l.length := percentileIdx_lt hn h0 h1
  have hk1 : percentileIdx l.length 1 < l.length := percentileIdx_lt hn zero_le_one le_rfl
  have hk0 : percentileIdx l.length 0 < l.length := percentileIdx_lt hn le_rfl zero_le_one
  refine ⟨⟨hk, compute_percentile_eq_get hne hk⟩, ⟨?_, ?_⟩, ⟨?_, ?_⟩, fun _ => rfl⟩
  · exact compute_percentile_mem hne zero_le_one le_rfl
  · intro x hx
    rw [compute_percentile_eq_get hne hk1]
    obtain ⟨i, rfl⟩ := List.mem_iff_get.1 hx
    refine hs.rel_get_of_le ?_
    rw [Fin.le_def]
    have hi := i.isLt
    simp only [percentileIdx_one hn]
    omega
  · exact compute_percentile_mem hne le_rfl zero_le_one
  · intro x hx
    rw [compute_percentile_eq_get hne hk0]
    obtain ⟨i, rfl⟩ := List.mem_iff_get.1 hx
    refine hs.rel_get_of_le ?_
    rw [Fin.le_def]
    simp [percentileIdx_zero]

theorem compute_percentile_nearest_rank_witness :
    (∃ hk : percentileIdx ([0, 1] : List ℚ).length (1/2) < ([0, 1] : List ℚ).length,
        compute_percentile [0, 1] (1/2) =
          ([0, 1] : List ℚ).get ⟨percentileIdx ([0, 1] : List ℚ).length (1/2), hk⟩)
    ∧ (compute_percentile [0, 1] 1 ∈ ([0, 1] : List ℚ)
        ∧ ∀ x ∈ ([0, 1] : List ℚ), x ≤ compute_percentile [0, 1] 1)
    ∧ (compute_percentile [0, 1] 0 ∈ ([0, 1] : List ℚ)
        ∧ ∀ x ∈ ([0, 1] : List ℚ), compute_percentile [0, 1] 0 ≤ x)
    ∧ (∀ g : ℚ, compute_percentile [] g = 0) :=
  compute_percentile_nearest_rank [0, 1] (1/2) (by simp) (by simp)
    (by norm_num) (by norm_num)

/-- **C5.** `aggregate_metrics` applied to the empty metric list returns the
`AggregateStats` whose every field is zero (and, being a total function,
does not raise). -/
theorem aggregate_metrics_empty (duration_seconds : ℕ) :
    aggregate_metrics [] duration_seconds = zeroStats := rfl

/-- The ordering chain of the percentile fields over one sorted latency list. -/
lemma percentile_chain (s : List ℚ) (hs : List.Sorted (· ≤ ·) s) :
    (if s = [] then 0 else listMin s) ≤ compute_percentile s 0.50
    ∧ compute_percentile s 0.50 ≤ compute_percentile s 0.75
    ∧ compute_percentile s 0.75 ≤ compute_percentile s 0.90
    ∧ compute_percentile s 0.90 ≤ compute_percentile s 0.95
    ∧ compute_percentile s 0.95 ≤ compute_percentile s 0.99
    ∧ compute_percentile s 0.99 ≤ compute_percentile s 0.999
    ∧ compute_percentile s 0.999 ≤ (if s = [] then 0 else listMax s) := by
  by_cases hne : s = []
  · subst hne; simp [compute_percentile]
  · rw [if_neg hne, if_neg hne]
    refine ⟨listMin_le_of_mem (compute_percentile_mem hne (by norm_num) (by norm_num)),
      compute_percentile_mono hs (by norm_num) (by norm_num) (by norm_num),
      compute_percentile_mono hs (by norm_num) (by norm_num) (by norm_num),
      compute_percentile_mono hs (by norm_num) (by norm_num) (by norm_num),
      compute_percentile_mono hs (by norm_num) (by norm_num) (by norm_num),
      compute_percentile_mono hs (by norm_num) (by norm_num) (by norm_num),
      le_listMax_of_mem (compute_percentile_mem hne (by norm_num) (by norm_num))⟩

/-- **C10.** `compute_percentile` is monotone in the fraction over any sorted
list, the selected index is always in bounds, and consequently every
`AggregateStats` produced by `aggregate_metrics` satisfies
`min_ms ≤ p50_ms ≤ p75_ms ≤ p90_ms ≤ p95_ms ≤ p99_ms ≤ p999_ms ≤ max_ms`. -/
theorem percentile_mono_and_stats_ordered (l : List ℚ) (f₁ f₂ : ℚ)
    (hs : List.Sorted (· ≤ ·) l) (h0 : 0 ≤ f₁) (h12 : f₁ ≤ f₂) (h1 : f₂ ≤ 1)
    (metrics : List RequestMetric) (duration_seconds : ℕ) :
    compute_percentile l f₁ ≤ compute_percentile l f₂
    ∧ (l ≠ [] → percentileIdx l.length f₁ < l.length
        ∧ percentileIdx l.length f₂ < l.length)
    ∧ ((aggregate_metrics metrics duration_seconds).min_ms
          ≤ (aggregate_metrics metrics duration_seconds).p50_ms
      ∧ (aggregate_metrics metrics duration_seconds).p50_ms
          ≤ (aggregate_metrics metrics duration_seconds).p75_ms
      ∧ (aggregate_metrics metrics duration_seconds).p75_ms
          ≤ (aggregate_metrics metrics duration_seconds).p90_ms
      ∧ (aggregate_metrics metrics duration_seconds).p90_ms
          ≤ (aggregate_metrics metrics duration_seconds).p95_ms
      ∧ (aggregate_metrics metrics duration_seconds).p95_ms
          ≤ (aggregate_metrics metrics duration_seconds).p99_ms
      ∧ (aggregate_metrics metrics duration_seconds).p99_ms
          ≤ (aggregate_metrics metrics duration_seconds).p999_ms
      ∧ (aggregate_metrics metrics duration_seconds).p999_ms
          ≤ (aggregate_metrics metrics duration_seconds).max_ms) := by
  refine ⟨compute_percentile_mono hs h0 h12 h1, ?_, ?_⟩
  · intro hne
    have hn : 1 ≤ l.length := List.length_pos.2 hne
    exact ⟨percentileIdx_lt hn h0 (le_trans h12 h1),
      percentileIdx_lt hn (le_trans h0 h12) h1⟩
  · by_cases hm : metrics = []
    · subst hm
      simp [aggregate_metrics, zeroStats]
    · have hchain := percentile_chain
        (List.insertionSort (· ≤ ·) ((metrics.filter (fun m => m.error == none)).map
          (fun m => m.latency_ms)))
        (List.sorted_insertionSort _ _)
      simp only [aggregate_metrics, if_neg hm]
      exact hchain

theorem percentile_mono_and_stats_ordered_witness :
    compute_percentile [0, 1] 0 ≤ compute_percentile [0, 1] 1
    ∧ (([0, 1] : List ℚ) ≠ [] → percentileIdx ([0, 1] : List ℚ).length 0 < ([0, 1] : List ℚ).length
        ∧ percentileIdx ([0, 1] : List ℚ).length 1 < ([0, 1] : List ℚ).length)
    ∧ ((aggregate_metrics [] 0).min_ms ≤ (aggregate_metrics [] 0).p50_ms
      ∧ (aggregate_metrics [] 0).p50_ms ≤ (aggregate_metrics [] 0).p75_ms
      ∧ (aggregate_metrics [] 0).p75_ms ≤ (aggregate_metrics [] 0).p90_ms
      ∧ (aggregate_metrics [] 0).p90_ms ≤ (aggregate_metrics [] 0).p95_ms
      ∧ (aggregate_metrics [] 0).p95_ms ≤ (aggregate_metrics [] 0).p99_ms
      ∧ (aggregate_metrics [] 0).p99_ms ≤ (aggregate_metrics [] 0).p999_ms
      ∧ (aggregate_metrics [] 0).p999_ms ≤ (aggregate_metrics [] 0).max_ms) :=
  percentile_mono_and_stats_ordered [0, 1] 0 1 (by simp) le_rfl zero_le_one le_rfl [] 0

/-! ### Timeline builder (`build_timeline`, lines 1305-1327) and the spike
detector that consumes its output (`analyze_results.py`, `analyze_timeline`,
lines 175-205). -/

/-- The one-second bucket key of a metric: `timestamp_ms // 1000`. -/
def tsKey (m : RequestMetric) : ℕ := m.timestamp_ms / 1000

/-- The bucket of one key: the sub-list of metrics appended to
`buckets[sec]` by the grouping loop of `build_timeline`, in log order. -/
def timelineBucket (metrics : List RequestMetric) (k : ℕ) : List RequestMetric :=
  metrics.filter (fun m => tsKey m == k)

/-- The bucket keys in the order `sorted(buckets.items())` visits them:
the distinct keys, ascending. -/
def bucketKeys (metrics : List RequestMetric) : List ℕ :=
  List.insertionSort (· ≤ ·) (metrics.map tsKey).dedup

/-- The compact per-second record emitted for one bucket (lines 1316-1325). -/
structure TimelinePoint where
  rps : ℚ
  allowed : ℕ
  denied : ℕ
  errors : ℕ
  p50_ms : ℚ
  p95_ms : ℚ
  p99_ms : ℚ
  avg_ms : ℚ
deriving DecidableEq

/-- Projection of an aggregate onto the fields the timeline keeps. -/
def timelinePoint (s : AggregateStats) : TimelinePoint :=
  ⟨s.rps, s.allowed, s.denied, s.errors, s.p50_ms, s.p95_ms, s.p99_ms, s.avg_ms⟩

/-- `build_timeline(metrics)`: partition by `timestamp_ms // 1000`, aggregate
each bucket with `elapsed_seconds = 1`, emit ordered by bucket key. -/
def build_timeline (metrics : List RequestMetric) : List (ℕ × TimelinePoint) :=
  (bucketKeys metrics).map
    (fun k => (k, timelinePoint (aggregate_metrics (timelineBucket metrics k) 1)))

/-- **C3.** `build_timeline` partitions the metric list into one-second
buckets keyed by `timestamp_ms // 1000`: every metric lies in exactly the
bucket of its own key, the bucket sizes over the emitted keys sum to the
total metric count, the emitted mapping is ordered by bucket key strictly
ascending, and every emitted entry is the per-second aggregate of its bucket
computed with `elapsed_seconds = 1`. -/
theorem build_timeline_partition (metrics : List RequestMetric) :
    (∀ m ∈ metrics, ∀ k, m ∈ timelineBucket metrics k ↔ k = tsKey m)
    ∧ ((bucketKeys metrics).map (fun k => (timelineBucket metrics k).length)).sum
        = metrics.length
    ∧ List.Sorted (· < ·) ((build_timeline metrics).map Prod.fst)
    ∧ ∀ p ∈ build_timeline metrics,
        p.2 = timelinePoint (aggregate_metrics (timelineBucket metrics p.1) 1) := by
  refine ⟨?_, ?_, ?_, ?_⟩
  · intro m hm k
    simp only [timelineBucket, List.mem_filter, beq_iff_eq]
    constructor
    · rintro ⟨-, rfl⟩; rfl
    · rintro rfl; exact ⟨hm, rfl⟩
  · have hlen : ∀ k, (timelineBucket metrics k).length = (metrics.map tsKey).count k := by
      intro k
      rw [timelineBucket, List.count, List.countP_map]
      rw [List.countP_eq_length_filter]
      rfl
    have hperm : List.Perm
        ((bucketKeys metrics).map (fun k => (timelineBucket metrics k).length))
        (((metrics.map tsKey).dedup).map (fun k => (timelineBucket metrics k).length)) :=
      (List.perm_insertionSort _ _).map _
    rw [hperm.sum_eq]
    have : ((metrics.map tsKey).dedup).map (fun k => (timelineBucket metrics k).length)
        = ((metrics.map tsKey).dedup).map (fun k => (metrics.map tsKey).count k) := by
      exact List.map_congr_left (fun k _ => hlen k)
    rw [this, List.sum_map_count_dedup_eq_length, List.length_map]
  · have hmap : (build_timeline metrics).map Prod.fst = bucketKeys metrics := by
      rw [build_timeline, List.map_map]
      exact List.map_id _
    rw [hmap]
    have hsorted : List.Sorted (· ≤ ·) (bucketKeys metrics) :=
      List.sorted_insertionSort _ _
    have hnodup : (bucketKeys metrics).Nodup :=
      ((List.perm_insertionSort _ _).nodup_iff).2 (List.nodup_dedup _)
    exact (hsorted.and hnodup).imp (fun h => lt_of_le_of_ne h.1 h.2)
  · intro p hp
    rw [build_timeline] at hp
    obtain ⟨k, -, rfl⟩ := List.mem_map.1 hp
    rfl

/-- Mean of the per-bucket P99 values over a timeline
(`analyze_timeline`, line 197). -/
def avg_p99 (timeline : List (ℕ × TimelinePoint)) : ℚ :=
  (timeline.map (fun kv => kv.2.p99_ms)).sum / timeline.length

/-- The latency-spike list of `analyze_timeline` (line 198): the
`(key, p99)` pairs of the buckets whose P99 strictly exceeds twice the
average P99.  It is only printed as a warning, never turned into a failure. -/
def detectSpikes (timeline : List (ℕ × TimelinePoint)) : List (ℕ × ℚ) :=
  (timeline.filter (fun kv => avg_p99 timeline * 2 < kv.2.p99_ms)).map
    (fun kv => (kv.1, kv.2.p99_ms))

/-- **C8.** Over a non-empty timeline, a bucket's `(key, p99)` pair is flagged
as a spike exactly when its P99 exceeds twice the run-wide average P99: every
such bucket is flagged and no other is. -/
theorem detectSpikes_flags_iff (timeline : List (ℕ × TimelinePoint))
    (hne : timeline ≠ []) :
    ∀ kv ∈ timeline,
      ((kv.1, kv.2.p99_ms) ∈ detectSpikes timeline
        ↔ avg_p99 timeline * 2 < kv.2.p99_ms) := by
  intro kv hkv
  rw [detectSpikes]
  constructor
  · intro hmem
    obtain ⟨kv', hkv', heq⟩ := List.mem_map.1 hmem
    obtain ⟨-, hcond⟩ := List.mem_filter.1 hkv'
    have h2 : kv'.2.p99_ms = kv.2.p99_ms := congrArg Prod.snd heq
    rw [h2] at hcond
    exact of_decide_eq_true hcond
  · intro hcond
    exact List.mem_map.2 ⟨kv, List.mem_filter.2 ⟨hkv, decide_eq_true hcond⟩, rfl⟩

theorem detectSpikes_flags_iff_witness :
    ((0, (30 : ℚ)) ∈ detectSpikes [(0, ⟨0, 0, 0, 0, 0, 0, 30, 0⟩),
        (1, ⟨0, 0, 0, 0, 0, 0, 0, 0⟩), (2, ⟨0, 0, 0, 0, 0, 0, 0, 0⟩)]
      ↔ avg_p99 [(0, ⟨0, 0, 0, 0, 0, 0, 30, 0⟩), (1, ⟨0, 0, 0, 0, 0, 0, 0, 0⟩),
        (2, ⟨0, 0, 0, 0, 0, 0, 0, 0⟩)] * 2 < (30 : ℚ)) :=
  detectSpikes_flags_iff
    [(0, ⟨0, 0, 0, 0, 0, 0, 30, 0⟩), (1, ⟨0, 0, 0, 0, 0, 0, 0, 0⟩),
      (2, ⟨0, 0, 0, 0, 0, 0, 0, 0⟩)] (by simp)
    (0, ⟨0, 0, 0, 0, 0, 0, 30, 0⟩) (by simp)

/-! ### Traffic simulation (`weighted_choice`, lines 327-335, and
`generate_traffic_profile`, lines 338-380). -/

/-- The accumulation loop of `weighted_choice`: walk the `(value, weight)`
pairs adding each weight to `acc`; return the first value for which
`r <= acc` holds, `none` when the loop falls through. -/
def weightedChoiceWalk {α : Type} (r : ℚ) (acc : ℚ) : List (α × ℚ) → Option α
  | [] => none
  | (v, w) :: rest => if r ≤ acc + w then some v else weightedChoiceWalk r (acc + w) rest

/-- `weighted_choice(rnd, items)` with the draw `r = rnd.random()` made
explicit: the walk starting from `acc = 0.0`, falling back to
`items[-1][0]` when no cumulative weight reaches `r`.  Python raises
`IndexError` on an empty `items`; that case is modelled as `none`. -/
def weighted_choice {α : Type} (r : ℚ) (items : List (α × ℚ)) : Option α :=
  match weightedChoiceWalk r 0 items with
  | some v => some v
  | none => (items.getLast?).map Prod.fst

/-- Cumulative weight of the first `i + 1` entries. -/
def cumWeight {α : Type} (items : List (α × ℚ)) (i : ℕ) : ℚ :=
  ((items.take (i + 1)).map Prod.snd).sum

lemma cumWeight_cons_zero {α : Type} (v : α) (w : ℚ) (rest : List (α × ℚ)) :
    cumWeight ((v, w) :: rest) 0 = w := by
  simp [cumWeight]

lemma cumWeight_cons_succ {α : Type} (v : α) (w : ℚ) (rest : List (α × ℚ)) (i : ℕ) :
    cumWeight ((v, w) :: rest) (i + 1) = w + cumWeight rest i := by
  simp [cumWeight]

lemma weightedChoiceWalk_hit {α : Type} (r : ℚ) (l : List (α × ℚ)) :
    ∀ (acc : ℚ) (i : ℕ) (hi : i < l.length),
      r ≤ acc + cumWeight l i → (∀ j, j < i → ¬ r ≤ acc + cumWeight l j) →
      weightedChoiceWalk r acc l = some (l.get ⟨i, hi⟩).1 := by
  induction l with
  | nil => intro acc i hi; simp at hi
  | cons p rest ih =>
    obtain ⟨v, w⟩ := p
    intro acc i hi hhit hfirst
    cases i with
    | zero =>
      rw [cumWeight_cons_zero] at hhit
      rw [weightedChoiceWalk, if_pos hhit]
      rfl
    | succ i =>
      have hmiss : ¬ r ≤ acc + w := by
        have := hfirst 0 (Nat.succ_pos i)
        rwa [cumWeight_cons_zero] at this
      rw [weightedChoiceWalk, if_neg hmiss]
      have hi' : i < rest.length := by simpa using hi
      have hhit' : r ≤ (acc + w) + cumWeight rest i := by
        rw [cumWeight_cons_succ] at hhit
        linarith
      have hfirst' : ∀ j, j < i → ¬ r ≤ (acc + w) + cumWeight rest j := by
        intro j hj hle
        refine hfirst (j + 1) (Nat.succ_lt_succ hj) ?_
        rw [cumWeight_cons_succ]
        linarith
      rw [ih (acc + w) i hi' hhit' hfirst']
      rfl

lemma weightedChoiceWalk_miss {α : Type} (r : ℚ) (l : List (α × ℚ)) :
    ∀ acc : ℚ, (∀ i, i < l.length → ¬ r ≤ acc + cumWeight l i) →
      weightedChoiceWalk r acc l = none := by
  induction l with
  | nil => intro acc _; rfl
  | cons p rest ih =>
    obtain ⟨v, w⟩ := p
    intro acc hmiss
    have h0 : ¬ r ≤ acc + w := by
      have := hmiss 0 (by simp)
      rwa [cumWeight_cons_zero] at this
    rw [weightedChoiceWalk, if_neg h0]
    refine ih (acc + w) ?_
    intro i hi hle
    refine hmiss (i + 1) (by simpa using Nat.succ_lt_succ hi) ?_
    rw [cumWeight_cons_succ]
    linarith

/-- **C4.** For every non-empty `(value, weight)` list and drawn `u ∈ [0,1)`:
whenever `i` is the first index whose cumulative weight reaches `u`
(`u ≤ cumWeight items i` and no earlier index does), `weighted_choice`
returns that entry's value; and when no cumulative weight reaches `u` it
falls back to the last entry's value. -/
theorem weighted_choice_first_cumulative (items : List (String × ℚ)) (u : ℚ)
    (hne : items ≠ []) (h0 : 0 ≤ u) (h1 : u < 1) :
    (∀ (i : ℕ) (hi : i < items.length), u ≤ cumWeight items i →
      (∀ j, j < i → ¬ u ≤ cumWeight items j) →
      weighted_choice u items = some (items.get ⟨i, hi⟩).1)
    ∧ ((∀ i, i < items.length → ¬ u ≤ cumWeight items i) →
      weighted_choice u items = some (items.getLast hne).1) := by
  constructor
  · intro i hi hhit hfirst
    rw [weighted_choice, weightedChoiceWalk_hit u items 0 i hi
      (by rwa [zero_add]) (fun j hj => by rw [zero_add]; exact hfirst j hj)]
  · intro hmiss
    rw [weighted_choice, weightedChoiceWalk_miss u items 0
      (fun i hi => by rw [zero_add]; exact hmiss i hi)]
    rw [List.getLast?_eq_getLast _ hne]
    rfl

theorem weighted_choice_first_cumulative_witness :
    (∀ (i : ℕ) (hi : i < ([("a", 1)] : List (String × ℚ)).length),
        (0 : ℚ) ≤ cumWeight [("a", 1)] i →
        (∀ j, j < i → ¬ (0 : ℚ) ≤ cumWeight [("a", 1)] j) →
        weighted_choice 0 [("a", 1)] = some (([("a", 1)] : List (String × ℚ)).get ⟨i, hi⟩).1)
    ∧ ((∀ i, i < ([("a", 1)] : List (String × ℚ)).length → ¬ (0 : ℚ) ≤ cumWeight [("a", 1)] i) →
        weighted_choice 0 [("a", 1)]
          = some (([("a", 1)] : List (String × ℚ)).getLast (by simp)).1) :=
  weighted_choice_first_cumulative [("a", 1)] 0 (by simp) le_rfl zero_lt_one

/-- `AlgorithmConfig` dataclass (lines 90-96). -/
structure AlgorithmConfig where
  name : String
  capacity : ℕ
  refill_rate : ℚ
  refill_period_seconds : ℕ
deriving DecidableEq

/-- `DEFAULT_ALGORITHM_CONFIGS` (lines 130-161). -/
def DEFAULT_ALGORITHM_CONFIGS : List AlgorithmConfig :=
  [⟨"TOKEN_BUCKET", 100, 10, 1⟩,
   ⟨"SLIDING_WINDOW", 100, 10, 1⟩,
   ⟨"SLIDING_WINDOW_COUNTER", 100, 10, 1⟩,
   ⟨"FIXED_WINDOW", 100, 10, 1⟩,
   ⟨"LEAKY_BUCKET", 100, 10, 1⟩]

/-- The `(name, weight)` pairs `generate_traffic_profile` builds from the
`ENDPOINTS` table (lines 168-209 and 361): only the weight column of each
entry is consumed by the generator, in insertion order. -/
def endpoint_items : List (String × ℚ) :=
  [("rate_limit_check", 0.60), ("get_config", 0.10), ("admin_stats", 0.05),
   ("admin_keys", 0.05), ("get_patterns", 0.05), ("save_config", 0.05),
   ("health_check", 0.05), ("metrics", 0.05)]

/-- `user_tiers` table (lines 345-350). -/
def user_tiers : List (String × ℚ) :=
  [("user:guest", 0.60), ("user:registered", 0.30),
   ("user:premium", 0.08), ("user:vip", 0.02)]

/-- `token_weights` table (lines 353-358). -/
def token_weights : List (ℕ × ℚ) :=
  [(1, 0.70), (2, 0.20), (5, 0.08), (10, 0.02)]

/-- Modelled from the spec: the seeded pseudo-random source
(`random.Random`, Python standard library — outside this repository) is
abstracted as a pure entropy stream fully determined by its seed together
with a position counter; each primitive draw consumes one stream value and
advances the position.  The spec demands only "no hidden state; same seed +
same call sequence ⇒ identical output sequence", which any pure stream
satisfies. -/
structure RandomState where
  stream : ℕ → ℕ
  pos : ℕ

/-- Modelled from the spec: constructing `random.Random(seed)` — a fixed
mixing function of the seed; its exact values are irrelevant, only that it is
a pure function of the seed. -/
def mkRandom (seed : ℕ) : RandomState :=
  ⟨fun i => (seed + i + 1) * 6364136223846793005 % 2 ^ 64, 0⟩

/-- `rnd.random()`: a rational in `[0, 1)` drawn from the stream. -/
def randFloat (s : RandomState) : ℚ × RandomState :=
  (((s.stream s.pos % 2 ^ 53 : ℕ) : ℚ) / (2 ^ 53 : ℚ), ⟨s.stream, s.pos + 1⟩)

/-- `rnd.randint(a, b)`: an integer in `[a, b]` drawn from the stream. -/
def randIntRange (s : RandomState) (a b : ℤ) : ℤ × RandomState :=
  (a + (s.stream s.pos : ℤ) % (b - a + 1), ⟨s.stream, s.pos + 1⟩)

/-- `rnd.choice(seq)`: an index below `seq`'s length drawn from the stream. -/
def randChoiceIdx (s : RandomState) (n : ℕ) : ℕ × RandomState :=
  (s.stream s.pos % n, ⟨s.stream, s.pos + 1⟩)

/-- The `(key, endpoint_name, tokens, client_ip, algorithm)` tuple returned
by `generate_traffic_profile`. -/
structure TrafficProfile where
  key : String
  endpoint : String
  tokens : ℕ
  client_ip : String
  algorithm : String
deriving DecidableEq

/-- `generate_traffic_profile(rnd, algorithms)` (lines 338-380): weighted
draws for endpoint, user tier and token count, a uniform `randint` user id,
a uniform algorithm choice, and a synthetic client IP; the composite key is
`f"{algorithm.lower()}:{user_tier}:{user_id}"`.  The weighted-choice
fallbacks are totalised with defaults that are unreachable for the non-empty
tables above. -/
def generate_traffic_profile (s : RandomState) (algorithms : List AlgorithmConfig) :
    TrafficProfile × RandomState :=
  let r1 := randFloat s
  let endpoint_name := (weighted_choice r1.1 endpoint_items).getD ""
  let r2 := randFloat r1.2
  let user_tier := (weighted_choice r2.1 user_tiers).getD ""
  let r3 := randIntRange r2.2 1 10000
  let r4 := randChoiceIdx r3.2 algorithms.length
  let algorithm := (algorithms.getD r4.1 ⟨"", 0, 0, 0⟩).name
  let key := algorithm.toLower ++ ":" ++ user_tier ++ ":" ++ toString r3.1
  let r5 := randFloat r4.2
  let tokens := (weighted_choice r5.1 token_weights).getD 1
  let r6 := randIntRange r5.2 0 255
  let r7 := randIntRange r6.2 0 255
  let r8 := randIntRange r7.2 1 254
  let client_ip :=
    "10." ++ toString r6.1 ++ "." ++ toString r7.1 ++ "." ++ toString r8.1
  (⟨key, endpoint_name, tokens, client_ip, algorithm⟩, r8.2)

/-- The sequence of `n` successive profiles drawn from one source, threading
the source state through the calls. -/
def profileSeq (s : RandomState) (algorithms : List AlgorithmConfig) :
    ℕ → List TrafficProfile
  | 0 => []
  | n + 1 =>
    (generate_traffic_profile s algorithms).1 ::
      profileSeq (generate_traffic_profile s algorithms).2 algorithms n

/-- `worker_thread` (line 480): each worker's source is
`random.Random(config.seed + worker_id)`. -/
def workerRandom (seed worker_id : ℕ) : RandomState := mkRandom (seed + worker_id)

/-- **C9.** Traffic generation is deterministic: two pseudo-random sources in
identical states drive `generate_traffic_profile` to identical output
sequences over any number of calls, and each worker's source is seeded with
the global seed plus its worker index. -/
theorem generate_traffic_profile_deterministic (s₁ s₂ : RandomState)
    (algorithms : List AlgorithmConfig) (n : ℕ)
    (hstream : s₁.stream = s₂.stream) (hpos : s₁.pos = s₂.pos) :
    profileSeq s₁ algorithms n = profileSeq s₂ algorithms n
    ∧ ∀ seed worker_id : ℕ, workerRandom seed worker_id = mkRandom (seed + worker_id) := by
  obtain ⟨f₁, p₁⟩ := s₁
  obtain ⟨f₂, p₂⟩ := s₂
  cases hstream
  cases hpos
  exact ⟨rfl, fun _ _ => rfl⟩

theorem generate_traffic_profile_deterministic_witness :
    profileSeq (mkRandom 42) DEFAULT_ALGORITHM_CONFIGS 3
        = profileSeq (mkRandom 42) DEFAULT_ALGORITHM_CONFIGS 3
    ∧ ∀ seed worker_id : ℕ, workerRandom seed worker_id = mkRandom (seed + worker_id) :=
  generate_traffic_profile_deterministic (mkRandom 42) (mkRandom 42)
    DEFAULT_ALGORITHM_CONFIGS 3 rfl rfl

/-! ### Edge-case scenarios.  Each scenario function is a pure function of
the HTTP responses it observes; a response to one `/api/ratelimit/check`
call is classified exactly as the scenario's loop classifies it. -/

/-- One response as `test_exhaust_bucket` (lines 795-882) classifies it:
status 200 with the body's `allowed` field truthy (`ok true`) or falsy —
missing or `false` — (`ok false`); status 429 (`tooMany`); any other status
(`otherStatus`); a raised exception — transport failure or undecodable body
(`transportFailure`, which the loop also logs as an issue). -/
inductive CheckResponse where
  | ok (allowed : Bool)
  | tooMany
  | otherStatus
  | transportFailure
deriving DecidableEq

/-- `allowed_count` of the exhaust-bucket loop. -/
def exhaustAllowedCount (rs : List CheckResponse) : ℕ :=
  rs.countP fun r => match r with | .ok true => true | _ => false

/-- `denied_count`: 200-with-falsy-`allowed` plus 429 responses. -/
def exhaustDeniedCount (rs : List CheckResponse) : ℕ :=
  rs.countP fun r => match r with | .ok false => true | .tooMany => true | _ => false

/-- `error_count`: other statuses plus exceptions. -/
def exhaustErrorCount (rs : List CheckResponse) : ℕ :=
  rs.countP fun r => match r with
    | .otherStatus => true | .transportFailure => true | _ => false

/-- The exceptions alone (each of which also appends a
`"Request i failed"` issue inside the loop). -/
def exhaustTransportCount (rs : List CheckResponse) : ℕ :=
  rs.countP fun r => match r with | .transportFailure => true | _ => false

/-- `capacity = 10` (line 805). -/
def exhaustCapacity : ℕ := 10

/-- `requests_to_send = capacity + 5` (line 815). -/
def exhaustRequestsToSend : ℕ := exhaustCapacity + 5

/-- Number of issue strings `test_exhaust_bucket` accumulates: per-request
exception issues plus the three validation checks
(lines 844-866). -/
def exhaustIssueCount (rs : List CheckResponse) : ℕ :=
  exhaustTransportCount rs
  + (if exhaustAllowedCount rs < exhaustCapacity - 1
        ∨ exhaustCapacity + 1 < exhaustAllowedCount rs then 1 else 0)
  + (if exhaustDeniedCount rs < (exhaustRequestsToSend - exhaustCapacity) - 1
        then 1 else 0)
  + (if 0 < exhaustErrorCount rs then 1 else 0)

/-- `passed = len(issues) == 0` (line 868). -/
def test_exhaust_bucket_passed (rs : List CheckResponse) : Bool :=
  exhaustIssueCount rs = 0

lemma exhaustTransportCount_le_errorCount (rs : List CheckResponse) :
    exhaustTransportCount rs ≤ exhaustErrorCount rs := by
  induction rs with
  | nil => rfl
  | cons r rest ih =>
    rw [exhaustTransportCount, exhaustErrorCount] at ih ⊢
    rw [List.countP_cons, List.countP_cons]
    cases r <;> simp <;> omega

/-- A 15-request run with ten allows, four 429 denials and one unexpected
HTTP status: allowed ∈ [9,11], denied ≥ 4 and zero transport errors, yet the
scenario reports failure because its error bucket also counts the unexpected
status. -/
def exhaustCounterexample : List CheckResponse :=
  List.replicate 10 (.ok true) ++ List.replicate 4 .tooMany ++ [.otherStatus]

/-- **C2 counterexample.** The claim's "pass iff allowed ∈ [9,11] ∧ denied ≥ 4
∧ zero transport errors" fails: this run satisfies all three conditions but
is reported as failed. -/
theorem test_exhaust_bucket_claim_counterexample :
    exhaustCounterexample.length = 15
    ∧ 9 ≤ exhaustAllowedCount exhaustCounterexample
    ∧ exhaustAllowedCount exhaustCounterexample ≤ 11
    ∧ 4 ≤ exhaustDeniedCount exhaustCounterexample
    ∧ exhaustTransportCount exhaustCounterexample = 0
    ∧ test_exhaust_bucket_passed exhaustCounterexample = false := by decide

/-- **C2 (amended).** The exhaust-bucket scenario with capacity 10 and 15
sequential requests reports pass if and only if the allowed count lies in
`[9, 11]`, the denied count is at least 4, and zero requests produced error
outcomes — where an error outcome is a transport failure or a response
status other than 200 and 429, not a transport failure alone. -/
theorem test_exhaust_bucket_pass_iff (rs : List CheckResponse)
    (hlen : rs.length = 15) :
    test_exhaust_bucket_passed rs = true ↔
      (9 ≤ exhaustAllowedCount rs ∧ exhaustAllowedCount rs ≤ 11
        ∧ 4 ≤ exhaustDeniedCount rs ∧ exhaustErrorCount rs = 0) := by
  have htr := exhaustTransportCount_le_errorCount rs
  rw [test_exhaust_bucket_passed, decide_eq_true_eq, exhaustIssueCount,
    exhaustCapacity, exhaustRequestsToSend, exhaustCapacity]
  constructor
  · intro h
    split_ifs at h with h1 h2 h3 <;> omega
  · intro h
    split_ifs with h1 h2 h3 <;> omega

theorem test_exhaust_bucket_pass_iff_witness :
    test_exhaust_bucket_passed
        (List.replicate 10 (.ok true) ++ List.replicate 5 .tooMany) = true ↔
      (9 ≤ exhaustAllowedCount (List.replicate 10 (.ok true) ++ List.replicate 5 .tooMany)
        ∧ exhaustAllowedCount (List.replicate 10 (.ok true) ++ List.replicate 5 .tooMany) ≤ 11
        ∧ 4 ≤ exhaustDeniedCount (List.replicate 10 (.ok true) ++ List.replicate 5 .tooMany)
        ∧ exhaustErrorCount (List.replicate 10 (.ok true) ++ List.replicate 5 .tooMany) = 0) :=
  test_exhaust_bucket_pass_iff
    (List.replicate 10 (.ok true) ++ List.replicate 5 .tooMany) (by decide)

/-- One response as `test_token_tracking` (lines 957-1026) classifies it:
only status-200 responses are inspected (`allowed` truthiness and the
optional `remainingTokens` field); any other status is silently skipped;
an exception appends an issue. -/
inductive TokenResponse where
  | ok (allowed : Bool) (remaining : Option ℤ)
  | otherStatus
  | transportFailure
deriving DecidableEq

/-- `remaining_tokens_list`: the `remainingTokens` values of the allowed
200-responses that carry one, in request order. -/
def remainingValues (rs : List TokenResponse) : List ℤ :=
  rs.flatMap fun r => match r with
    | .ok true (some v) => [v]
    | _ => []

/-- The exceptions of the token-tracking loop (each appends an issue). -/
def tokenTransportCount (rs : List TokenResponse) : ℕ :=
  rs.countP fun r => match r with | .transportFailure => true | _ => false

/-- The `all(l[i] >= l[i+1])` monotonicity check (lines 1000-1003). -/
def nonIncreasingB : List ℤ → Bool
  | a :: b :: t => (b ≤ a) && nonIncreasingB (b :: t)
  | _ => true

/-- `tokenCapacity = 15` (line 966). -/
def tokenCapacity : ℕ := 15

/-- Issue strings of `test_token_tracking`: exception issues, then either
the monotonicity verdict (when more than two values were collected) or a
`"Not enough token data collected"` issue (lines 998-1008). -/
def tokenIssueCount (rs : List TokenResponse) : ℕ :=
  tokenTransportCount rs
  + (if 2 < (remainingValues rs).length then
      (if nonIncreasingB (remainingValues rs) then 0 else 1)
    else 1)

/-- `passed = len(issues) == 0` (line 1010). -/
def test_token_tracking_passed (rs : List TokenResponse) : Bool :=
  tokenIssueCount rs = 0

/-- A capacity-15 run in which every request is allowed but no response
carries a `remainingTokens` value: the collected sequence is empty — hence
trivially non-increasing — yet the scenario reports failure
("Not enough token data collected"). -/
def tokenCounterexample : List TokenResponse :=
  List.replicate 15 (.ok true none)

/-- **C7 counterexample.** The claim's "pass iff the collected remaining-token
sequence is non-increasing" fails: this run's collected sequence is
non-increasing (vacuously) but the scenario reports failure. -/
theorem test_token_tracking_claim_counterexample :
    tokenCounterexample.length = 15
    ∧ tokenTransportCount tokenCounterexample = 0
    ∧ nonIncreasingB (remainingValues tokenCounterexample) = true
    ∧ test_token_tracking_passed tokenCounterexample = false := by decide

/-- **C7 (amended).** The token-tracking scenario (capacity 15, refill
disabled, 15 requests) reports pass if and only if no request raised a
transport error, more than two remaining-token values were collected from
allowed responses, and the collected sequence is monotonically
non-increasing. -/
theorem test_token_tracking_pass_iff (rs : List TokenResponse)
    (hlen : rs.length = 15) :
    test_token_tracking_passed rs = true ↔
      (tokenTransportCount rs = 0 ∧ 2 < (remainingValues rs).length
        ∧ nonIncreasingB (remainingValues rs) = true) := by
  rw [test_token_tracking_passed, decide_eq_true_eq, tokenIssueCount]
  constructor
  · intro h
    split_ifs at h with h1 h2
    exact ⟨by omega, h1, h2⟩
  · rintro ⟨htr0, hlen2, hmono⟩
    split_ifs
    omega

theorem test_token_tracking_pass_iff_witness :
    test_token_tracking_passed
        ([.ok true (some 3), .ok true (some 2), .ok true (some 1)]
          ++ List.replicate 12 (.ok false none)) = true ↔
      (tokenTransportCount ([.ok true (some 3), .ok true (some 2), .ok true (some 1)]
          ++ List.replicate 12 (.ok false none)) = 0
        ∧ 2 < (remainingValues ([.ok true (some 3), .ok true (some 2), .ok true (some 1)]
          ++ List.replicate 12 (.ok false none))).length
        ∧ nonIncreasingB (remainingValues ([.ok true (some 3), .ok true (some 2),
          .ok true (some 1)] ++ List.replicate 12 (.ok false none))) = true) :=
  test_token_tracking_pass_iff
    ([.ok true (some 3), .ok true (some 2), .ok true (some 1)]
      ++ List.replicate 12 (.ok false none)) (by decide)

/-- One follow-up response as `test_retry_after_headers` (lines 1029-1124)
classifies it: a 200 body with `allowed` and optional `retryAfterSeconds`;
a 429 with the body's optional `retryAfterSeconds` (absent when the body is
not valid JSON) and the optional integer-parsed `Retry-After` header; any
other status, silently ignored; or an exception, which appends an issue. -/
inductive RetryResponse where
  | ok (allowed : Bool) (retryAfter : Option ℤ)
  | tooMany (bodyRetry : Option ℤ) (headerRetry : Option ℤ)
  | otherStatus
  | transportFailure
deriving DecidableEq

/-- `denied_count` of the follow-up loop: 200-with-falsy-`allowed` plus 429. -/
def retryDeniedCount (rs : List RetryResponse) : ℕ :=
  rs.countP fun r => match r with
    | .ok false _ => true
    | .tooMany _ _ => true
    | _ => false

/-- The `retry_after_values` contributed by one response: a positive body
value of a denied 200; for a 429, a positive body value and then the header
value — the header value is appended without a positivity check. -/
def retryValuesOf : RetryResponse → List ℤ
  | .ok false (some v) => if 0 < v then [v] else []
  | .tooMany b h =>
      (match b with | some v => if 0 < v then [v] else [] | none => [])
      ++ (match h with | some v => [v] | none => [])
  | _ => []

/-- `retry_after_values` over the whole follow-up sequence. -/
def retryValues (rs : List RetryResponse) : List ℤ := rs.flatMap retryValuesOf

/-- The exceptions of the follow-up loop (each appends an issue). -/
def retryTransportCount (rs : List RetryResponse) : ℕ :=
  rs.countP fun r => match r with | .transportFailure => true | _ => false

/-- Issue strings of `test_retry_after_headers`: exception issues, then the
`if denied == 0 / elif no values / elif any value <= 0` chain
(lines 1102-1108). -/
def retryIssueCount (rs : List RetryResponse) : ℕ :=
  retryTransportCount rs
  + (if retryDeniedCount rs = 0 then 1
    else if (retryValues rs).length = 0 then 1
    else if (retryValues rs).any (fun v => v ≤ 0) then 1 else 0)

/-- `passed = len(issues) == 0` (line 1110). -/
def test_retry_after_passed (rs : List RetryResponse) : Bool :=
  retryIssueCount rs = 0

/-- The claim's reading of "every denied response carries a positive
retry-after value". -/
def deniedHasPositiveRetry : RetryResponse → Bool
  | .ok false (some v) => 0 < v
  | .ok false none => false
  | .tooMany b h =>
      (match b with | some v => decide (0 < v) | none => false)
      || (match h with | some v => decide (0 < v) | none => false)
  | _ => true

/-- Five denied follow-ups of which only the first carries a retry-after
value: the scenario passes — it only requires the values it did collect to
be positive — although four denied responses carry none. -/
def retryCounterexample : List RetryResponse :=
  [.ok false (some 3), .ok false none, .ok false none, .ok false none,
    .ok false none]

/-- **C6 counterexample.** The claim's "pass only when every denied response
carries a retry-after value > 0" fails: this follow-up run passes although
four of its five denied responses carry no retry-after value at all. -/
theorem test_retry_after_claim_counterexample :
    retryCounterexample.length = 5
    ∧ test_retry_after_passed retryCounterexample = true
    ∧ retryCounterexample.all deniedHasPositiveRetry = false := by decide

/-- **C6 (amended).** The retry-after scenario reports pass on its 5-request
follow-up sequence if and only if no request raised a transport error, at
least one response was denied, at least one retry-after value was collected
(from a denied 200 body, a 429 body, or a `Retry-After` header), and every
collected value is strictly positive. -/
theorem test_retry_after_pass_iff (rs : List RetryResponse)
    (hlen : rs.length = 5) :
    test_retry_after_passed rs = true ↔
      (retryTransportCount rs = 0 ∧ 0 < retryDeniedCount rs
        ∧ retryValues rs ≠ [] ∧ ∀ v ∈ retryValues rs, 0 < v) := by
  rw [test_retry_after_passed, decide_eq_true_eq, retryIssueCount]
  split_ifs with h1 h2 h3
  · constructor
    · intro h; exact h.elim
    · rintro ⟨-, hd, -, -⟩; omega
  · constructor
    · intro h; exact h.elim
    · rintro ⟨-, -, hv, -⟩
      exact absurd (List.length_eq_zero.1 h2) hv
  · constructor
    · intro h; exact h.elim
    · rintro ⟨-, -, -, hall⟩
      obtain ⟨v, hv, hle⟩ := List.any_eq_true.1 h3
      have h4 := hall v hv
      have h5 := of_decide_eq_true hle
      omega
  · constructor
    · intro h
      refine ⟨by omega, by omega, fun hnil => h2 (by rw [hnil]; rfl), ?_⟩
      intro v hv
      by_contra hneg
      exact h3 (List.any_eq_true.2 ⟨v, hv, decide_eq_true (by omega)⟩)
    · rintro ⟨htr, -, -, -⟩; omega

theorem test_retry_after_pass_iff_witness :
    test_retry_after_passed [.tooMany none (some 2), .ok true none, .ok true none,
        .ok true none, .ok true none] = true ↔
      (retryTransportCount [.tooMany none (some 2), .ok true none, .ok true none,
          .ok true none, .ok true none] = 0
        ∧ 0 < retryDeniedCount [.tooMany none (some 2), .ok true none, .ok true none,
          .ok true none, .ok true none]
        ∧ retryValues [.tooMany none (some 2), .ok true none, .ok true none,
          .ok true none, .ok true none] ≠ []
        ∧ ∀ v ∈ retryValues [.tooMany none (some 2), .ok true none, .ok true none,
          .ok true none, .ok true none], 0 < v) :=
  test_retry_after_pass_iff [.tooMany none (some 2), .ok true none, .ok true none,
    .ok true none, .ok true none] (by decide)

end RateLimiterLoadTest
